import Mathlib

/-!
# A model of the `datainspect` column-profiling core

A shallow embedding of the per-column streaming profiling engine of
`src/main.rs`: the `ColumnStats` struct with its Welford-style `update`,
the `stddev` accessor, the per-column portion of the `inspect_csv`
ingestion loop (lazy profile creation and categorical→numeric promotion),
and the pure warning-list construction of `diagnose_column`.

`f64` arithmetic is idealized as exact rational arithmetic.  The single
square root of the source (`prev_stddev` inside the outlier test, and the
result of `stddev()`) is translated away by squaring: for nonnegative
radicands, `sqrt r > 0` iff `r > 0`, and `|d| / sqrt r ≥ 5` iff
`d ^ 2 ≥ 25 * r`, so every comparison the program makes is expressible in
the rationals.
-/

/-- A raw CSV cell, abstracted to exactly the string interface `main.rs`
uses: `empty` is the empty string; `num x isInt` is a non-empty string that
parses as an `f64` with (exact) value `x`, where `isInt = true` means it
also parses as an `i64` (every string the `i64` parser accepts is accepted
by the `f64` parser); `boolean b` is a case variant of `true`/`false`
(rejected by both numeric parsers); `text s` is any other non-empty
string.  Non-finite numeric strings (`NaN`, `inf`) are outside the model. -/
inductive Raw
  | empty
  | num (x : ℚ) (isInt : Bool)
  | boolean (b : Bool)
  | text (s : String)
  deriving DecidableEq

/-- The `ColumnType` enum of `main.rs`. -/
inductive ColumnType
  | Numeric
  | Categorical
  deriving DecidableEq

/-- `value.parse::<f64>()` on the abstraction `Raw`. -/
def parse_f64 : Raw → Option ℚ
  | Raw.num x _ => some x
  | _ => none

/-- `infer_type` of `main.rs` (lines 407-417): `i64`-parseable →
`"integer"`, else `f64`-parseable → `"float"`, else a case variant of
`true`/`false` → `"boolean"`, else `"string"`. -/
def infer_type : Raw → String
  | Raw.num _ true => "integer"
  | Raw.num _ false => "float"
  | Raw.boolean _ => "boolean"
  | _ => "string"

/-- The `ColumnStats` struct of `main.rs` (lines 78-100).  `f64` fields are
modelled as exact rationals and the `HashSet<String>` of uniques as a
`Finset Raw`. -/
structure ColumnStats where
  name : String
  kind : ColumnType
  total : ℕ
  missing : ℕ
  min : Option ℚ
  max : Option ℚ
  mean : ℚ
  m2 : ℚ
  uniques : Finset Raw
  numeric_parse_failures : ℕ
  outlier_count : ℕ
  deriving DecidableEq

/-- `ColumnStats::new` (lines 105-119). -/
def ColumnStats.new (name : String) (kind : ColumnType) : ColumnStats :=
  { name := name
    kind := kind
    total := 0
    missing := 0
    min := none
    max := none
    mean := 0
    m2 := 0
    uniques := ∅
    numeric_parse_failures := 0
    outlier_count := 0 }

/-- The inner outlier test of `ColumnStats::update` (lines 135-141), with
the square root eliminated: writing `prev_var = m2 / (previous_count - 1)`
(which is nonnegative in every reachable state), the source condition
`prev_stddev > 0.0` is `0 < prev_var`, and for a positive `prev_stddev`
the condition `|x - mean| / prev_stddev >= 5.0` is
`25 * prev_var ≤ (x - mean) ^ 2`. -/
def outlierTest (m2 mean x : ℚ) (previous_count : ℕ) : Prop :=
  0 < m2 / ((previous_count : ℚ) - 1) ∧
    25 * (m2 / ((previous_count : ℚ) - 1)) ≤ (x - mean) ^ 2

instance (m2 mean x : ℚ) (c : ℕ) : Decidable (outlierTest m2 mean x c) :=
  inferInstanceAs (Decidable (_ ∧ _))

/-- `ColumnStats::update` (lines 121-160), translated clause by clause.
The source's conditional `self.outlier_count += 1` is expressed as adding
`if _ then 1 else 0`; `previous_count` is the source's
`self.total - self.missing - 1` taken after the initial `self.total += 1`,
with `usize` subtraction modelled by truncated `ℕ` subtraction (it never
underflows on this branch, where the current value is non-empty). -/
def ColumnStats.update (stats : ColumnStats) (value : Raw) : ColumnStats :=
  let s := { stats with total := stats.total + 1 }
  if value = Raw.empty then
    { s with missing := s.missing + 1 }
  else
    match s.kind with
    | ColumnType.Numeric =>
      match parse_f64 value with
      | some x =>
        let previous_count := s.total - s.missing - 1
        let outlier_inc : ℕ :=
          if 2 ≤ previous_count ∧ outlierTest s.m2 s.mean x previous_count
          then 1 else 0
        let count := previous_count + 1
        let delta := x - s.mean
        let mean' := s.mean + delta / (count : ℚ)
        { s with
          outlier_count := s.outlier_count + outlier_inc
          mean := mean'
          m2 := s.m2 + delta * (x - mean')
          min := some ((s.min).elim x (fun m => Min.min m x))
          max := some ((s.max).elim x (fun m => Max.max m x)) }
      | none =>
        { s with numeric_parse_failures := s.numeric_parse_failures + 1 }
    | ColumnType.Categorical =>
      { s with uniques := insert value s.uniques }

/-- `ColumnStats::stddev` (lines 162-169) returns
`sqrt (m2 / (count - 1))` when `count = total - missing > 1` and `None`
otherwise.  We model the radicand exactly; since the square root is
injective on the nonnegative reals, definedness and equality statements
about `stddev` are stated through this radicand. -/
def ColumnStats.stddevSq (s : ColumnStats) : Option ℚ :=
  let count := s.total - s.missing
  if 1 < count then some (s.m2 / ((count : ℚ) - 1)) else none

/-- The strings stored in the `inferred` vector of `inspect_csv`. -/
def kindName : ColumnType → String
  | ColumnType.Numeric => "numeric"
  | ColumnType.Categorical => "categorical"

/-- The per-column ingestion state of `inspect_csv`: the entry of
`inferred` and the entry of `column_stats` for one column index. -/
structure ColState where
  inferred : Option String
  stats : Option ColumnStats
  deriving DecidableEq

/-- One iteration of the `inspect_csv` row loop restricted to one column
(lines 191-222): lazy creation on first encounter (an empty first value
seeds `Categorical`), categorical→numeric promotion when a non-empty value
classifies as integer or float, then `update`. -/
def ingestStep (header : String) (c : ColState) (value : Raw) : ColState :=
  let c :=
    if c.inferred.isNone then
      let kind :=
        if value = Raw.empty then ColumnType.Categorical
        else
          match infer_type value with
          | "integer" => ColumnType.Numeric
          | "float" => ColumnType.Numeric
          | _ => ColumnType.Categorical
      { inferred := some (kindName kind)
        stats := some (ColumnStats.new header kind) }
    else c
  match c.stats with
  | some stats =>
    if stats.kind = ColumnType.Categorical ∧ value ≠ Raw.empty ∧
        (infer_type value = "integer" ∨ infer_type value = "float") then
      { inferred := some (kindName ColumnType.Numeric)
        stats := some (ColumnStats.update
          { stats with kind := ColumnType.Numeric, uniques := ∅ } value) }
    else
      { c with stats := some (ColumnStats.update stats value) }
  | none => c

/-- Feeding one column's values in row order through the `inspect_csv`
loop, from the initial (not yet materialized) state. -/
def ingestColumn (header : String) (values : List Raw) : ColState :=
  values.foldl (ingestStep header) { inferred := none, stats := none }

/-- The kind of the column's profile, when the profile exists. -/
def ColState.kindOf (c : ColState) : Option ColumnType :=
  c.stats.map ColumnStats.kind

/-- The warnings pushed by `diagnose_column` (lines 288-346), identified
by their rule together with the numeric payload that the source formats
into the message string (string formatting itself is rendering). -/
inductive Warning
  | missingValues (pct : ℕ)
  | highCardinality (uniqueFraction : ℚ)
  | nearConstant
  | mixedValues
  | outliers (count : ℕ)
  deriving DecidableEq

/-- `diagnose_column` (lines 288-346), as the pure warning-list builder
(the source prints the list, or `ok` when it is empty).  The `f64`
constants `0.05`, `0.95` and `1e-12` are the exact rationals `1/20`,
`19/20` and `1/10^12`; `(missing_ratio * 100.0).round() as usize` is
`(round _).toNat` (for the nonnegative ratios arising here, `f64` rounding
half away from zero agrees with `round`); the `usize` subtraction
`total_rows - stats.missing` is truncated `ℕ` subtraction. -/
def diagnose_column (stats : ColumnStats) (total_rows : ℕ) : List Warning :=
  let warnings : List Warning := []
  let missFrac : ℚ := (stats.missing : ℚ) / (total_rows : ℚ)
  let warnings :=
    if missFrac > 1 / 20 then
      warnings ++ [Warning.missingValues (round (missFrac * 100)).toNat]
    else warnings
  match stats.kind with
  | ColumnType.Categorical =>
    let non_missing := total_rows - stats.missing
    if 0 < non_missing then
      let uniqFrac : ℚ := (stats.uniques.card : ℚ) / (non_missing : ℚ)
      if uniqFrac > 19 / 20 then
        warnings ++ [Warning.highCardinality uniqFrac]
      else warnings
    else warnings
  | ColumnType.Numeric =>
    let warnings :=
      match stats.min, stats.max with
      | some mn, some mx =>
        if |mx - mn| < 1 / 1000000000000 then
          warnings ++ [Warning.nearConstant]
        else warnings
      | _, _ => warnings
    let warnings :=
      if 0 < stats.numeric_parse_failures then
        warnings ++ [Warning.mixedValues]
      else warnings
    if 0 < stats.outlier_count then
      warnings ++ [Warning.outliers stats.outlier_count]
    else warnings

/-- Pairs `(value, parses-as-i64)` describing purely numeric input, and
their injection into `Raw`. -/
def toRaw (p : ℚ × Bool) : Raw := Raw.num p.1 p.2

/-- Reference arithmetic mean (first pass of the spec's two-pass
reference algorithm). -/
def specMean (xs : List ℚ) : ℚ := xs.sum / (xs.length : ℚ)

/-- Reference two-pass Bessel-corrected sample variance, from the spec's
words: the square of the reference sample standard deviation. -/
def specSampleVar (xs : List ℚ) : ℚ :=
  ((xs.map (fun x => (x - specMean xs) ^ 2)).sum) / ((xs.length : ℚ) - 1)

/-- Sum of squares of a list, used to state the Welford invariant. -/
def sumSq (l : List ℚ) : ℚ := (l.map (fun x => x ^ 2)).sum

/-- A fixed header label for concrete test columns. -/
def colName : String := "col"

/-- The concrete non-numeric cell `"a"`. -/
def strA : String := "a"

/-- The concrete non-numeric cell `"x"`. -/
def strX : String := "x"

/-- Scenario A of the spec as `(value, parses-as-i64)` pairs. -/
def psA : List (ℚ × Bool) :=
  [(1, true), (2, true), (3, true), (4, true), (100, true)]

/-- Invariant of every reachable per-column state: the `inferred` entry and
the profile are materialized together, and a `Numeric` profile always has
`min` and `max` set (the value that made the column numeric was folded by
the `update` in the same iteration). -/
def ReachInv (c : ColState) : Prop :=
  (c.inferred = none ∧ c.stats = none) ∨
  (∃ nm s, c.inferred = some nm ∧ c.stats = some s ∧
    (s.kind = ColumnType.Numeric →
      s.min.isSome = true ∧ s.max.isSome = true))

/-! Concrete intermediate states of small test columns, named so that the
step-by-step evaluations below stay readable.  `stN1 … stN5` are the states
of the purely numeric column `"1","2","3","4","100"` (Scenario A); `stNX`
follows `"1","x"`; `stCatA` follows `"a"`; `stProm5`/`stProm1` follow the
promoting columns `"a","5"` and `"a","1"`; `stE1 … stE3` follow
`"","","5"` (Scenario D). -/

def stN1 : ColumnStats :=
  { name := colName, kind := ColumnType.Numeric, total := 1, missing := 0,
    min := some 1, max := some 1, mean := 1, m2 := 0, uniques := ∅,
    numeric_parse_failures := 0, outlier_count := 0 }

def stN2 : ColumnStats :=
  { name := colName, kind := ColumnType.Numeric, total := 2, missing := 0,
    min := some 1, max := some 2, mean := 3 / 2, m2 := 1 / 2, uniques := ∅,
    numeric_parse_failures := 0, outlier_count := 0 }

def stN3 : ColumnStats :=
  { name := colName, kind := ColumnType.Numeric, total := 3, missing := 0,
    min := some 1, max := some 3, mean := 2, m2 := 2, uniques := ∅,
    numeric_parse_failures := 0, outlier_count := 0 }

def stN4 : ColumnStats :=
  { name := colName, kind := ColumnType.Numeric, total := 4, missing := 0,
    min := some 1, max := some 4, mean := 5 / 2, m2 := 5, uniques := ∅,
    numeric_parse_failures := 0, outlier_count := 0 }

def stN5 : ColumnStats :=
  { name := colName, kind := ColumnType.Numeric, total := 5, missing := 0,
    min := some 1, max := some 100, mean := 22, m2 := 7610, uniques := ∅,
    numeric_parse_failures := 0, outlier_count := 1 }

def stNX : ColumnStats :=
  { name := colName, kind := ColumnType.Numeric, total := 2, missing := 0,
    min := some 1, max := some 1, mean := 1, m2 := 0, uniques := ∅,
    numeric_parse_failures := 1, outlier_count := 0 }

def stCatA : ColumnStats :=
  { name := colName, kind := ColumnType.Categorical, total := 1, missing := 0,
    min := none, max := none, mean := 0, m2 := 0, uniques := {Raw.text strA},
    numeric_parse_failures := 0, outlier_count := 0 }

def stProm5 : ColumnStats :=
  { name := colName, kind := ColumnType.Numeric, total := 2, missing := 0,
    min := some 5, max := some 5, mean := 5 / 2, m2 := 25 / 2, uniques := ∅,
    numeric_parse_failures := 0, outlier_count := 0 }

def stProm1 : ColumnStats :=
  { name := colName, kind := ColumnType.Numeric, total := 2, missing := 0,
    min := some 1, max := some 1, mean := 1 / 2, m2 := 1 / 2, uniques := ∅,
    numeric_parse_failures := 0, outlier_count := 0 }

def stE1 : ColumnStats :=
  { name := colName, kind := ColumnType.Categorical, total := 1, missing := 1,
    min := none, max := none, mean := 0, m2 := 0, uniques := ∅,
    numeric_parse_failures := 0, outlier_count := 0 }

def stE2 : ColumnStats :=
  { name := colName, kind := ColumnType.Categorical, total := 2, missing := 2,
    min := none, max := none, mean := 0, m2 := 0, uniques := ∅,
    numeric_parse_failures := 0, outlier_count := 0 }

def stE3 : ColumnStats :=
  { name := colName, kind := ColumnType.Numeric, total := 3, missing := 2,
    min := some 5, max := some 5, mean := 5, m2 := 0, uniques := ∅,
    numeric_parse_failures := 0, outlier_count := 0 }

/-! ## Basic facts about `ColumnStats.update` -/

theorem update_kind (s : ColumnStats) (v : Raw) :
    (s.update v).kind = s.kind := by
  unfold ColumnStats.update
  cases v <;> cases hk : s.kind <;> simp [parse_f64, hk]

theorem update_name (s : ColumnStats) (v : Raw) :
    (s.update v).name = s.name := by
  unfold ColumnStats.update
  cases v <;> cases hk : s.kind <;> simp [parse_f64, hk]

theorem update_total (s : ColumnStats) (v : Raw) :
    (s.update v).total = s.total + 1 := by
  unfold ColumnStats.update
  cases v <;> cases hk : s.kind <;> simp [parse_f64, hk]

theorem update_missing (s : ColumnStats) (v : Raw) :
    (s.update v).missing = s.missing + (if v = Raw.empty then 1 else 0) := by
  unfold ColumnStats.update
  cases v <;> cases hk : s.kind <;> simp [parse_f64, hk]

theorem update_empty (s : ColumnStats) :
    s.update Raw.empty =
      { s with total := s.total + 1, missing := s.missing + 1 } := rfl

theorem update_min_isSome (s : ColumnStats) (v : Raw)
    (h : s.min.isSome = true) : (s.update v).min.isSome = true := by
  unfold ColumnStats.update
  cases v <;> cases hk : s.kind <;> simp [parse_f64, hk, h]

theorem update_max_isSome (s : ColumnStats) (v : Raw)
    (h : s.max.isSome = true) : (s.update v).max.isSome = true := by
  unfold ColumnStats.update
  cases v <;> cases hk : s.kind <;> simp [parse_f64, hk, h]

/-- The numeric-success branch of `update`, field by field.  Note that the
source's `previous_count` (computed after `total += 1`) equals
`s.total - s.missing` in terms of the pre-update fields. -/
theorem update_num_fields (s : ColumnStats)
    (hk : s.kind = ColumnType.Numeric) (x : ℚ) (b : Bool) :
    (s.update (Raw.num x b)).mean
        = s.mean + (x - s.mean) / ((s.total - s.missing + 1 : ℕ) : ℚ) ∧
    (s.update (Raw.num x b)).m2
        = s.m2 + (x - s.mean) *
            (x - (s.mean + (x - s.mean) / ((s.total - s.missing + 1 : ℕ) : ℚ))) ∧
    (s.update (Raw.num x b)).min
        = some ((s.min).elim x (fun m => Min.min m x)) ∧
    (s.update (Raw.num x b)).max
        = some ((s.max).elim x (fun m => Max.max m x)) ∧
    (s.update (Raw.num x b)).outlier_count
        = s.outlier_count +
            (if 2 ≤ s.total - s.missing ∧
                outlierTest s.m2 s.mean x (s.total - s.missing)
             then 1 else 0) ∧
    (s.update (Raw.num x b)).numeric_parse_failures
        = s.numeric_parse_failures ∧
    (s.update (Raw.num x b)).uniques = s.uniques := by
  unfold ColumnStats.update
  simp [parse_f64, hk, Nat.sub_sub, Nat.add_sub_add_right]

/-- The numeric-failure branch of `update`. -/
theorem update_num_fail (s : ColumnStats)
    (hk : s.kind = ColumnType.Numeric) (v : Raw)
    (hv : v ≠ Raw.empty) (hp : parse_f64 v = none) :
    s.update v =
      { s with total := s.total + 1,
               numeric_parse_failures := s.numeric_parse_failures + 1 } := by
  unfold ColumnStats.update
  simp [hk, hp, hv]

/-- The categorical branch of `update`. -/
theorem update_cat (s : ColumnStats)
    (hk : s.kind = ColumnType.Categorical) (v : Raw) (hv : v ≠ Raw.empty) :
    s.update v =
      { s with total := s.total + 1, uniques := insert v s.uniques } := by
  unfold ColumnStats.update
  simp [hk, hv]

/-! ## Basic facts about `ingestStep` -/

theorem step_create_num (header : String) (x : ℚ) (b : Bool) :
    ingestStep header { inferred := none, stats := none } (Raw.num x b) =
      { inferred := some (kindName ColumnType.Numeric)
        stats := some ((ColumnStats.new header ColumnType.Numeric).update
          (Raw.num x b)) } := by
  cases b <;> rfl

theorem step_create_empty (header : String) :
    ingestStep header { inferred := none, stats := none } Raw.empty =
      { inferred := some (kindName ColumnType.Categorical)
        stats := some ((ColumnStats.new header ColumnType.Categorical).update
          Raw.empty) } := rfl

theorem step_create_text (header : String) (t : String) :
    ingestStep header { inferred := none, stats := none } (Raw.text t) =
      { inferred := some (kindName ColumnType.Categorical)
        stats := some ((ColumnStats.new header ColumnType.Categorical).update
          (Raw.text t)) } := rfl

theorem step_create_boolean (header : String) (b : Bool) :
    ingestStep header { inferred := none, stats := none } (Raw.boolean b) =
      { inferred := some (kindName ColumnType.Categorical)
        stats := some ((ColumnStats.new header ColumnType.Categorical).update
          (Raw.boolean b)) } := rfl

/-- Once materialized with a `Numeric` kind, a step is just `update`. -/
theorem step_numeric (header nm : String) (s : ColumnStats)
    (hk : s.kind = ColumnType.Numeric) (v : Raw) :
    ingestStep header { inferred := some nm, stats := some s } v =
      { inferred := some nm, stats := some (s.update v) } := by
  unfold ingestStep
  simp [hk]

/-- A materialized `Categorical` column meeting a value that classifies as
integer or float: promotion, then `update`. -/
theorem step_promote (header nm : String) (s : ColumnStats)
    (hk : s.kind = ColumnType.Categorical) (x : ℚ) (b : Bool) :
    ingestStep header { inferred := some nm, stats := some s } (Raw.num x b) =
      { inferred := some (kindName ColumnType.Numeric)
        stats := some (ColumnStats.update
          { s with kind := ColumnType.Numeric, uniques := ∅ } (Raw.num x b)) } := by
  unfold ingestStep
  cases b <;> simp [hk, infer_type]

/-- A materialized `Categorical` column meeting a value that does not
classify as integer or float: no promotion, just `update`. -/
theorem step_cat (header nm : String) (s : ColumnStats)
    (hk : s.kind = ColumnType.Categorical) (v : Raw)
    (hv : infer_type v ≠ "integer" ∧ infer_type v ≠ "float") :
    ingestStep header { inferred := some nm, stats := some s } v =
      { inferred := some nm, stats := some (s.update v) } := by
  unfold ingestStep
  simp [hk, hv.1, hv.2]

/-! ## Folding a numeric column -/

theorem foldl_update_kind (s : ColumnStats) (l : List Raw) :
    (l.foldl ColumnStats.update s).kind = s.kind := by
  induction l generalizing s with
  | nil => rfl
  | cons v t ih => rw [List.foldl_cons, ih, update_kind]

theorem foldl_ingest_numeric (header nm : String) (s : ColumnStats)
    (hk : s.kind = ColumnType.Numeric) (l : List Raw) :
    l.foldl (ingestStep header) { inferred := some nm, stats := some s } =
      { inferred := some nm, stats := some (l.foldl ColumnStats.update s) } := by
  induction l generalizing s with
  | nil => rfl
  | cons v t ih =>
      rw [List.foldl_cons, step_numeric header nm s hk v, List.foldl_cons,
        ih (s.update v) (by rw [update_kind, hk])]

theorem ingest_num_cons (header : String) (p : ℚ × Bool) (ps : List (ℚ × Bool)) :
    ingestColumn header ((p :: ps).map toRaw) =
      { inferred := some (kindName ColumnType.Numeric)
        stats := some ((ps.map toRaw).foldl ColumnStats.update
          ((ColumnStats.new header ColumnType.Numeric).update (toRaw p))) } := by
  unfold ingestColumn
  rw [List.map_cons, List.foldl_cons]
  rw [show ingestStep header { inferred := none, stats := none } (toRaw p)
      = { inferred := some (kindName ColumnType.Numeric)
          stats := some ((ColumnStats.new header ColumnType.Numeric).update (toRaw p)) }
    from step_create_num header p.1 p.2]
  exact foldl_ingest_numeric header (kindName ColumnType.Numeric) _
    (by rw [update_kind]; rfl) _

theorem sum_sq_shift (l : List ℚ) (c : ℚ) :
    (l.map (fun x => (x - c) ^ 2)).sum
      = sumSq l - 2 * c * l.sum + (l.length : ℚ) * c ^ 2 := by
  induction l with
  | nil => simp [sumSq]
  | cons a t ih =>
      simp only [List.map_cons, List.sum_cons, sumSq, List.length_cons, ih]
      push_cast
      ring

theorem sum_sq_dev (l : List ℚ) (hl : l ≠ []) :
    (l.map (fun x => (x - l.sum / (l.length : ℚ)) ^ 2)).sum
      = sumSq l - l.sum ^ 2 / (l.length : ℚ) := by
  have hn : (l.length : ℚ) ≠ 0 := by
    exact Nat.cast_ne_zero.2 (List.length_pos.2 hl).ne'
  rw [sum_sq_shift]
  field_simp
  ring

/-- The Welford invariant: folding further purely numeric values into a
clean numeric state whose `mean` and `m2` describe the list `l` of values
folded so far yields the state describing `l ++` the new values. -/
theorem welford_fold (ps : List (ℚ × Bool)) :
    ∀ (l : List ℚ) (s : ColumnStats), l ≠ [] →
      s.kind = ColumnType.Numeric → s.total = l.length → s.missing = 0 →
      s.mean = l.sum / (l.length : ℚ) →
      s.m2 = sumSq l - l.sum ^ 2 / (l.length : ℚ) →
      ((ps.map toRaw).foldl ColumnStats.update s).kind = ColumnType.Numeric ∧
      ((ps.map toRaw).foldl ColumnStats.update s).total
          = (l ++ ps.map Prod.fst).length ∧
      ((ps.map toRaw).foldl ColumnStats.update s).missing = 0 ∧
      ((ps.map toRaw).foldl ColumnStats.update s).mean
          = (l ++ ps.map Prod.fst).sum / ((l ++ ps.map Prod.fst).length : ℚ) ∧
      ((ps.map toRaw).foldl ColumnStats.update s).m2
          = sumSq (l ++ ps.map Prod.fst)
              - (l ++ ps.map Prod.fst).sum ^ 2 / ((l ++ ps.map Prod.fst).length : ℚ) := by
  induction ps with
  | nil =>
      intro l s hl hk ht hm hmean hm2
      simpa using ⟨hk, ht, hm, hmean, hm2⟩
  | cons q qs ih =>
      intro l s hl hk ht hm hmean hm2
      have hn : (l.length : ℚ) ≠ 0 := by
        exact Nat.cast_ne_zero.2 (List.length_pos.2 hl).ne'
      have hn1 : (l.length : ℚ) + 1 ≠ 0 := by positivity
      obtain ⟨hmean', hm2', -, -, -, -, -⟩ :=
        update_num_fields s hk q.1 q.2
      have hcast : ((s.total - s.missing + 1 : ℕ) : ℚ) = (l.length : ℚ) + 1 := by
        rw [ht, hm, Nat.sub_zero]
        push_cast
        ring
      have hmean2 : (s.update (toRaw q)).mean
          = (l ++ [q.1]).sum / ((l ++ [q.1]).length : ℚ) := by
        rw [show toRaw q = Raw.num q.1 q.2 from rfl, hmean', hcast, hmean]
        simp only [List.sum_append, List.length_append, List.sum_cons,
          List.sum_nil, List.length_cons, List.length_nil]
        push_cast
        field_simp
        ring
      have hm22 : (s.update (toRaw q)).m2
          = sumSq (l ++ [q.1]) - (l ++ [q.1]).sum ^ 2 / ((l ++ [q.1]).length : ℚ) := by
        rw [show toRaw q = Raw.num q.1 q.2 from rfl, hm2', hcast, hmean, hm2]
        simp only [List.sum_append, List.length_append, List.sum_cons,
          List.sum_nil, List.length_cons, List.length_nil, sumSq,
          List.map_append, List.map_cons, List.map_nil]
        push_cast
        field_simp
        ring
      have := ih (l ++ [q.1]) (s.update (toRaw q)) (by simp)
        (by rw [update_kind, hk])
        (by rw [update_total, ht]; simp)
        (by rw [update_missing, hm]; simp [toRaw])
        hmean2 hm22
      rw [List.map_cons, List.foldl_cons]
      simpa [List.append_assoc] using this

/-! ## Reachable ingestion states -/

theorem infer_num (v : Raw)
    (h : infer_type v = "integer" ∨ infer_type v = "float") :
    ∃ x b, v = Raw.num x b := by
  cases v with
  | num x b => exact ⟨x, b, rfl⟩
  | empty => simp [infer_type] at h
  | boolean b => simp [infer_type] at h
  | text t => simp [infer_type] at h

theorem reachInv_init : ReachInv { inferred := none, stats := none } :=
  Or.inl ⟨rfl, rfl⟩

theorem reachInv_step (header : String) (c : ColState) (v : Raw)
    (h : ReachInv c) : ReachInv (ingestStep header c v) := by
  rcases h with ⟨h1, h2⟩ | ⟨nm, s, h1, h2, h3⟩
  · obtain ⟨ci, cs⟩ := c
    cases h1; cases h2
    cases v with
    | empty =>
        rw [step_create_empty]
        refine Or.inr ⟨_, _, rfl, rfl, fun hk => ?_⟩
        rw [update_kind] at hk
        cases hk
    | num x b =>
        rw [step_create_num]
        refine Or.inr ⟨_, _, rfl, rfl, fun _ => ?_⟩
        obtain ⟨-, -, hmin, hmax, -⟩ :=
          update_num_fields (ColumnStats.new header ColumnType.Numeric) rfl x b
        constructor
        · rw [hmin]; rfl
        · rw [hmax]; rfl
    | boolean b =>
        rw [step_create_boolean]
        refine Or.inr ⟨_, _, rfl, rfl, fun hk => ?_⟩
        rw [update_kind] at hk
        cases hk
    | text t =>
        rw [step_create_text]
        refine Or.inr ⟨_, _, rfl, rfl, fun hk => ?_⟩
        rw [update_kind] at hk
        cases hk
  · obtain ⟨ci, cs⟩ := c
    cases h1; cases h2
    rcases hk : s.kind with _ | _
    · rw [step_numeric header nm s hk v]
      refine Or.inr ⟨_, _, rfl, rfl, fun _ => ?_⟩
      obtain ⟨hmin, hmax⟩ := h3 hk
      exact ⟨update_min_isSome s v hmin, update_max_isSome s v hmax⟩
    · by_cases hp : infer_type v = "integer" ∨ infer_type v = "float"
      · obtain ⟨x, b, rfl⟩ := infer_num v hp
        rw [step_promote header nm s hk x b]
        refine Or.inr ⟨_, _, rfl, rfl, fun _ => ?_⟩
        obtain ⟨-, -, hmin, hmax, -⟩ :=
          update_num_fields { s with kind := ColumnType.Numeric, uniques := ∅ }
            rfl x b
        constructor
        · rw [hmin]; rfl
        · rw [hmax]; rfl
      · push_neg at hp
        rw [step_cat header nm s hk v hp]
        refine Or.inr ⟨_, _, rfl, rfl, fun hk2 => ?_⟩
        rw [update_kind, hk] at hk2
        cases hk2

theorem reachInv_ingest (header : String) (l : List Raw) :
    ReachInv (ingestColumn header l) := by
  unfold ingestColumn
  generalize hc : ({ inferred := none, stats := none } : ColState) = c0
  have h0 : ReachInv c0 := hc ▸ reachInv_init
  clear hc
  induction l generalizing c0 with
  | nil => exact h0
  | cons v t ih => exact ih _ (reachInv_step header c0 v h0)

/-! ## Step-by-step evaluation of the concrete test columns -/

theorem ingest_append (header : String) (l1 l2 : List Raw) :
    ingestColumn header (l1 ++ l2) =
      l2.foldl (ingestStep header) (ingestColumn header l1) := by
  unfold ingestColumn
  rw [List.foldl_append]

theorem updN1 :
    (ColumnStats.new colName ColumnType.Numeric).update (Raw.num 1 true)
      = stN1 := by
  simp [ColumnStats.update, ColumnStats.new, parse_f64, stN1, outlierTest]

theorem updN2 : stN1.update (Raw.num 2 true) = stN2 := by
  simp [ColumnStats.update, stN1, stN2, parse_f64, outlierTest]
  try norm_num

theorem updN3 : stN2.update (Raw.num 3 true) = stN3 := by
  simp [ColumnStats.update, stN2, stN3, parse_f64, outlierTest]
  try norm_num

theorem updN4 : stN3.update (Raw.num 4 true) = stN4 := by
  simp [ColumnStats.update, stN3, stN4, parse_f64, outlierTest]
  try norm_num

theorem updN5 : stN4.update (Raw.num 100 true) = stN5 := by
  simp [ColumnStats.update, stN4, stN5, parse_f64, outlierTest]
  try norm_num

theorem updNX : stN1.update (Raw.text strX) = stNX := by
  simp [ColumnStats.update, stN1, stNX, parse_f64]

theorem updCatA :
    (ColumnStats.new colName ColumnType.Categorical).update (Raw.text strA)
      = stCatA := by
  simp [ColumnStats.update, ColumnStats.new, stCatA]

theorem updProm5 :
    ColumnStats.update { stCatA with kind := ColumnType.Numeric, uniques := ∅ }
      (Raw.num 5 true) = stProm5 := by
  simp [ColumnStats.update, stCatA, stProm5, parse_f64, outlierTest]
  try norm_num

theorem updProm1 :
    ColumnStats.update { stCatA with kind := ColumnType.Numeric, uniques := ∅ }
      (Raw.num 1 true) = stProm1 := by
  simp [ColumnStats.update, stCatA, stProm1, parse_f64, outlierTest]
  try norm_num

theorem updE1 :
    (ColumnStats.new colName ColumnType.Categorical).update Raw.empty
      = stE1 := by
  simp [ColumnStats.update, ColumnStats.new, stE1]

theorem updE2 : stE1.update Raw.empty = stE2 := by
  simp [ColumnStats.update, stE1, stE2]

theorem updE3 :
    ColumnStats.update { stE2 with kind := ColumnType.Numeric, uniques := ∅ }
      (Raw.num 5 true) = stE3 := by
  simp [ColumnStats.update, stE2, stE3, parse_f64, outlierTest]
  try norm_num

theorem runN1 :
    ingestColumn colName [Raw.num 1 true]
      = ⟨some (kindName ColumnType.Numeric), some stN1⟩ := by
  unfold ingestColumn
  rw [List.foldl_cons, step_create_num, updN1, List.foldl_nil]

theorem runN5 :
    ingestColumn colName (psA.map toRaw)
      = ⟨some (kindName ColumnType.Numeric), some stN5⟩ := by
  rw [show psA.map toRaw = [Raw.num 1 true, Raw.num 2 true, Raw.num 3 true,
      Raw.num 4 true, Raw.num 100 true] from rfl]
  unfold ingestColumn
  rw [List.foldl_cons, step_create_num, updN1,
    List.foldl_cons, step_numeric colName _ stN1 rfl, updN2,
    List.foldl_cons, step_numeric colName _ stN2 rfl, updN3,
    List.foldl_cons, step_numeric colName _ stN3 rfl, updN4,
    List.foldl_cons, step_numeric colName _ stN4 rfl, updN5,
    List.foldl_nil]

theorem runNX :
    ingestColumn colName [Raw.num 1 true, Raw.text strX]
      = ⟨some (kindName ColumnType.Numeric), some stNX⟩ := by
  rw [show [Raw.num 1 true, Raw.text strX]
      = [Raw.num 1 true] ++ [Raw.text strX] from rfl]
  rw [ingest_append, runN1, List.foldl_cons,
    step_numeric colName _ stN1 rfl, updNX, List.foldl_nil]

theorem runCatA :
    ingestColumn colName [Raw.text strA]
      = ⟨some (kindName ColumnType.Categorical), some stCatA⟩ := by
  unfold ingestColumn
  rw [List.foldl_cons, step_create_text, updCatA, List.foldl_nil]

theorem runProm5 :
    ingestColumn colName [Raw.text strA, Raw.num 5 true]
      = ⟨some (kindName ColumnType.Numeric), some stProm5⟩ := by
  rw [show [Raw.text strA, Raw.num 5 true]
      = [Raw.text strA] ++ [Raw.num 5 true] from rfl]
  rw [ingest_append, runCatA, List.foldl_cons,
    step_promote colName _ stCatA rfl 5 true, updProm5, List.foldl_nil]

theorem runProm1 :
    ingestColumn colName [Raw.text strA, Raw.num 1 true]
      = ⟨some (kindName ColumnType.Numeric), some stProm1⟩ := by
  rw [show [Raw.text strA, Raw.num 1 true]
      = [Raw.text strA] ++ [Raw.num 1 true] from rfl]
  rw [ingest_append, runCatA, List.foldl_cons,
    step_promote colName _ stCatA rfl 1 true, updProm1, List.foldl_nil]

theorem runE1 :
    ingestColumn colName [Raw.empty]
      = ⟨some (kindName ColumnType.Categorical), some stE1⟩ := by
  unfold ingestColumn
  rw [List.foldl_cons, step_create_empty, updE1, List.foldl_nil]

theorem runE2 :
    ingestColumn colName [Raw.empty, Raw.empty]
      = ⟨some (kindName ColumnType.Categorical), some stE2⟩ := by
  rw [show [Raw.empty, Raw.empty] = [Raw.empty] ++ [Raw.empty] from rfl]
  rw [ingest_append, runE1, List.foldl_cons,
    step_cat colName _ stE1 rfl Raw.empty (by decide), updE2, List.foldl_nil]

theorem runE3 :
    ingestColumn colName [Raw.empty, Raw.empty, Raw.num 5 true]
      = ⟨some (kindName ColumnType.Numeric), some stE3⟩ := by
  rw [show [Raw.empty, Raw.empty, Raw.num 5 true]
      = [Raw.empty, Raw.empty] ++ [Raw.num 5 true] from rfl]
  rw [ingest_append, runE2, List.foldl_cons,
    step_promote colName _ stE2 rfl 5 true, updE3, List.foldl_nil]

theorem foldl_update_missing (s : ColumnStats) (l : List Raw) :
    (l.foldl ColumnStats.update s).missing
      = s.missing + l.countP (fun v => decide (v = Raw.empty)) := by
  induction l generalizing s with
  | nil => simp
  | cons v t ih =>
      rw [List.foldl_cons, ih, update_missing, List.countP_cons]
      by_cases hv : v = Raw.empty <;> (simp [hv]; try omega)

/-! ## The claims -/

/-- C1: the claim states that the previous sample count used for the
outlier test and the Welford divisor counts only the values successfully
folded so far.  The code instead uses `total - missing - 1`, which also
counts numeric parse failures: for the column `"1","x","2"`, the update
folding `"2"` uses `previous_count = 2` instead of `1`, so the resulting
mean is `1 + (2-1)/3 = 4/3` rather than the mean `3/2` of the two folded
values `1` and `2` that the claimed count would produce. -/
theorem c1_divisor_counts_parse_failures :
    (ingestColumn colName [Raw.num 1 true, Raw.text strX, Raw.num 2 true]).stats.map
        ColumnStats.mean = some (4 / 3) ∧
    (ingestColumn colName [Raw.num 1 true, Raw.text strX, Raw.num 2 true]).stats.map
        ColumnStats.numeric_parse_failures = some 1 ∧
    (4 : ℚ) / 3 ≠ (1 + 2) / 2 := by
  rw [show [Raw.num 1 true, Raw.text strX, Raw.num 2 true]
      = [Raw.num 1 true, Raw.text strX] ++ [Raw.num 2 true] from rfl]
  rw [ingest_append, runNX, List.foldl_cons, List.foldl_nil,
    step_numeric colName _ stNX rfl]
  refine ⟨?_, ?_, by norm_num⟩
  · simp only [Option.map_some']
    rw [(update_num_fields stNX rfl 2 true).1]
    norm_num [stNX]
  · simp only [Option.map_some']
    rw [(update_num_fields stNX rfl 2 true).2.2.2.2.2.1]
    simp [stNX]

/-- C2: the claim states that a value `v` promoting a column after `k ≥ 1`
prior non-empty categorical values becomes the first numeric sample
(`mean = v`, `m2 = 0`).  In the code the prior categorical values inflate
`previous_count`, so for the column `"a","5"` the promoting value `5` is
folded as if it were the second sample: `mean = 5/2` and `m2 = 25/2`
(while `min = max = 5`). -/
theorem c2_promotion_value_not_first_sample :
    (ingestColumn colName [Raw.text strA, Raw.num 5 true]).stats.map
        ColumnStats.min = some (some 5) ∧
    (ingestColumn colName [Raw.text strA, Raw.num 5 true]).stats.map
        ColumnStats.max = some (some 5) ∧
    (ingestColumn colName [Raw.text strA, Raw.num 5 true]).stats.map
        ColumnStats.mean = some (5 / 2) ∧
    (ingestColumn colName [Raw.text strA, Raw.num 5 true]).stats.map
        ColumnStats.m2 = some (25 / 2) ∧
    (5 : ℚ) / 2 ≠ 5 ∧ (25 : ℚ) / 2 ≠ 0 := by
  rw [runProm5]
  refine ⟨rfl, rfl, rfl, rfl, by norm_num, by norm_num⟩

/-- C3: the claim states that `stddev()` is defined iff more than one value
was folded into the moments.  The code tests `total - missing > 1`, which
also counts parse failures: for the column `"1","x"` only one value was
folded (`numeric_parse_failures = 1`), yet `count = 2 > 1` and the
accessor returns `Some (sqrt (0 / 1)) = Some 0` instead of `None`. -/
theorem c3_stddev_defined_with_one_folded_sample :
    (ingestColumn colName [Raw.num 1 true, Raw.text strX]).stats.map
        ColumnStats.stddevSq = some (some 0) ∧
    (ingestColumn colName [Raw.num 1 true, Raw.text strX]).stats.map
        ColumnStats.numeric_parse_failures = some 1 ∧
    (ingestColumn colName [Raw.num 1 true, Raw.text strX]).stats.map
        ColumnStats.total = some 2 ∧
    (ingestColumn colName [Raw.num 1 true, Raw.text strX]).stats.map
        ColumnStats.missing = some 0 := by
  rw [runNX]
  refine ⟨?_, rfl, rfl, rfl⟩
  simp only [Option.map_some']
  rw [show stNX.stddevSq = some 0 from by
    simp [ColumnStats.stddevSq, stNX]]

/-- C5: the claim states that the updates folding the first and second
numeric samples never increment `outlier_count`.  For the column
`"a","1","1000"` the categorical value `"a"` inflates `previous_count`, the
first fold (of `1`) therefore leaves `m2 = 1/2 > 0`, and the update folding
the second sample `1000` passes the `previous_count ≥ 2` gate and flags it:
`outlier_count` goes from `0` to `1` on the second folded sample. -/
theorem c5_second_folded_sample_flagged :
    (ingestColumn colName [Raw.text strA, Raw.num 1 true]).stats.map
        ColumnStats.outlier_count = some 0 ∧
    (ingestColumn colName [Raw.text strA, Raw.num 1 true]).stats.map
        ColumnStats.numeric_parse_failures = some 0 ∧
    (ingestColumn colName [Raw.text strA, Raw.num 1 true]).stats.map
        ColumnStats.total = some 2 ∧
    (ingestColumn colName [Raw.text strA, Raw.num 1 true, Raw.num 1000 true]).stats.map
        ColumnStats.outlier_count = some 1 := by
  refine ⟨by rw [runProm1]; rfl, by rw [runProm1]; rfl, by rw [runProm1]; rfl, ?_⟩
  rw [show [Raw.text strA, Raw.num 1 true, Raw.num 1000 true]
      = [Raw.text strA, Raw.num 1 true] ++ [Raw.num 1000 true] from rfl]
  rw [ingest_append, runProm1, List.foldl_cons, List.foldl_nil,
    step_numeric colName _ stProm1 rfl]
  simp only [Option.map_some']
  rw [(update_num_fields stProm1 rfl 1000 true).2.2.2.2.1]
  norm_num [stProm1, outlierTest]

/-- C6: the `kind` of a column is monotonic: whenever the profile is
`Numeric` after ingesting a prefix `l1`, it is still materialized and
`Numeric` after ingesting any continuation `l2` (so `Categorical→Numeric`
can happen at most once and `Numeric→Categorical` never happens:
`ColumnStats.update` never writes `kind`, and the promotion branch of
`ingestStep` only fires when the kind is `Categorical`). -/
theorem c6_promotion_monotonic (header : String) (l1 l2 : List Raw)
    (s : ColumnStats) (h1 : (ingestColumn header l1).stats = some s)
    (h2 : s.kind = ColumnType.Numeric) :
    ∃ t, (ingestColumn header (l1 ++ l2)).stats = some t ∧
      t.kind = ColumnType.Numeric := by
  have hinv := reachInv_ingest header l1
  unfold ReachInv at hinv
  rcases hinv with ⟨-, hb⟩ | ⟨nm, s', ha, hb, -⟩
  · rw [h1] at hb
    exact absurd hb (by simp)
  · obtain rfl : s = s' := Option.some_injective _ (h1.symm.trans hb)
    have hc : ingestColumn header l1 = { inferred := some nm, stats := some s } := by
      rcases hE : ingestColumn header l1 with ⟨ci, cs⟩
      rw [hE] at ha hb
      obtain rfl : ci = some nm := ha
      obtain rfl : cs = some s := hb
      rfl
    rw [ingest_append, hc, foldl_ingest_numeric header nm s h2 l2]
    exact ⟨_, rfl, by rw [foldl_update_kind, h2]⟩

theorem c6_promotion_monotonic_witness :
    ∃ t, (ingestColumn colName ([Raw.num 1 true] ++ [Raw.text strA, Raw.empty])).stats
        = some t ∧ t.kind = ColumnType.Numeric :=
  c6_promotion_monotonic colName [Raw.num 1 true] [Raw.text strA, Raw.empty]
    stN1 (by rw [runN1]) rfl

/-- C8: `update` with the empty string increments exactly `total` and
`missing` and leaves every other field unchanged; for every update the
`missing` field grows by one exactly when the value is empty, so after any
sequence of updates `missing` equals the number of empty-string updates
(and in particular a non-empty parse failure never increments it). -/
theorem c8_empty_update_frame :
    (∀ s : ColumnStats, s.update Raw.empty =
        { s with total := s.total + 1, missing := s.missing + 1 }) ∧
    (∀ (s : ColumnStats) (v : Raw),
        (s.update v).missing = s.missing + (if v = Raw.empty then 1 else 0)) ∧
    (∀ (s : ColumnStats) (l : List Raw),
        (l.foldl ColumnStats.update s).missing
          = s.missing + l.countP (fun v => decide (v = Raw.empty))) :=
  ⟨update_empty, update_missing, foldl_update_missing⟩

/-- C10: whenever the per-column state after ingesting any list of values
holds a profile whose kind is `Numeric`, that profile's `min` and `max` are
both `Some` (the value that made the column numeric was itself folded in
the same iteration), so the `unwrap()` calls of the summary path cannot
panic. -/
theorem c10_numeric_profile_has_min_max (header : String) (l : List Raw)
    (s : ColumnStats) (h1 : (ingestColumn header l).stats = some s)
    (h2 : s.kind = ColumnType.Numeric) :
    s.min.isSome = true ∧ s.max.isSome = true := by
  have hinv := reachInv_ingest header l
  unfold ReachInv at hinv
  rcases hinv with ⟨-, hb⟩ | ⟨nm, s', -, hb, h3⟩
  · rw [h1] at hb
    exact absurd hb (by simp)
  · obtain rfl : s = s' := Option.some_injective _ (h1.symm.trans hb)
    exact h3 h2

theorem c10_numeric_profile_has_min_max_witness :
    stN1.min.isSome = true ∧ stN1.max.isSome = true :=
  c10_numeric_profile_has_min_max colName [Raw.num 1 true] stN1
    (by rw [runN1]) rfl

/-- C9: a column whose first encountered value is empty is materialized
with kind `Categorical`; any later non-empty value classifying as integer
or float promotes the column to `Numeric` in the step processing that
value; in particular, for the column `"","","5","6"` the kind is
`Categorical` after the first and second rows and `Numeric` from the third
row on. -/
theorem c9_empty_first_value_defaults_categorical :
    (∀ header : String,
      (ingestStep header { inferred := none, stats := none } Raw.empty).kindOf
        = some ColumnType.Categorical) ∧
    (∀ (header : String) (c : ColState) (s : ColumnStats) (v : Raw),
      c.stats = some s → s.kind = ColumnType.Categorical → v ≠ Raw.empty →
      (infer_type v = "integer" ∨ infer_type v = "float") →
      (ingestStep header c v).kindOf = some ColumnType.Numeric) ∧
    ((ingestColumn colName [Raw.empty]).kindOf = some ColumnType.Categorical ∧
     (ingestColumn colName [Raw.empty, Raw.empty]).kindOf
        = some ColumnType.Categorical ∧
     (ingestColumn colName [Raw.empty, Raw.empty, Raw.num 5 true]).kindOf
        = some ColumnType.Numeric ∧
     (ingestColumn colName
        [Raw.empty, Raw.empty, Raw.num 5 true, Raw.num 6 true]).kindOf
        = some ColumnType.Numeric) := by
  refine ⟨?_, ?_, ?_, ?_, ?_, ?_⟩
  · intro header
    rw [step_create_empty]
    simp [ColState.kindOf, update_kind, ColumnStats.new]
  · intro header c s v h1 h2 h3 h4
    obtain ⟨x, b, rfl⟩ := infer_num v h4
    rcases c with ⟨ci, cs⟩
    obtain rfl : cs = some s := h1
    rcases ci with _ | nm
    · cases b <;>
        simp [ingestStep, ColState.kindOf, infer_type, kindName,
          update_kind, ColumnStats.new]
    · rw [step_promote header nm s h2 x b]
      simp [ColState.kindOf, update_kind]
  · rw [runE1]
    rfl
  · rw [runE2]
    rfl
  · rw [runE3]
    rfl
  · rw [show [Raw.empty, Raw.empty, Raw.num 5 true, Raw.num 6 true]
        = [Raw.empty, Raw.empty, Raw.num 5 true] ++ [Raw.num 6 true] from rfl]
    rw [ingest_append, runE3, List.foldl_cons, List.foldl_nil,
      step_numeric colName _ stE3 rfl]
    simp [ColState.kindOf, update_kind, stE3]

theorem c9_empty_first_value_defaults_categorical_witness :
    (ingestStep colName
        ⟨some (kindName ColumnType.Categorical), some stE2⟩
        (Raw.num 5 true)).kindOf = some ColumnType.Numeric :=
  c9_empty_first_value_defaults_categorical.2.1 colName
    ⟨some (kindName ColumnType.Categorical), some stE2⟩ stE2 (Raw.num 5 true)
    rfl rfl (by decide) (by decide)

/-- C4: for a column fed only values that parse as `f64` (given with their
`i64`-parseability flags), the final `mean` is exactly the reference
arithmetic mean and the `stddev` radicand is exactly the reference
two-pass Bessel-corrected sample variance (so `stddev` equals the
reference sample standard deviation; in exact arithmetic the tolerance of
the claim is met with equality); and for Scenario A
(`"1","2","3","4","100"`) the final state has `min = 1`, `max = 100`,
`mean = 22`. -/
theorem c4_numeric_column_refines_two_pass :
    (∀ (header : String) (ps : List (ℚ × Bool)), ps ≠ [] →
      (ingestColumn header (ps.map toRaw)).stats.map ColumnStats.mean
          = some (specMean (ps.map Prod.fst)) ∧
      (ingestColumn header (ps.map toRaw)).stats.map ColumnStats.stddevSq
          = some (if 1 < (ps.map Prod.fst).length
                  then some (specSampleVar (ps.map Prod.fst)) else none)) ∧
    ((ingestColumn colName (psA.map toRaw)).stats.map ColumnStats.min
        = some (some 1) ∧
     (ingestColumn colName (psA.map toRaw)).stats.map ColumnStats.max
        = some (some 100) ∧
     (ingestColumn colName (psA.map toRaw)).stats.map ColumnStats.mean
        = some 22) := by
  constructor
  · intro header ps hne
    obtain ⟨p, ps', rfl⟩ := List.exists_cons_of_ne_nil hne
    rw [ingest_num_cons]
    obtain ⟨hmean1, hm21, -, -, -, -, -⟩ :=
      update_num_fields (ColumnStats.new header ColumnType.Numeric) rfl p.1 p.2
    have hk1 : ((ColumnStats.new header ColumnType.Numeric).update
        (toRaw p)).kind = ColumnType.Numeric := by
      rw [update_kind]
      rfl
    have ht1 : ((ColumnStats.new header ColumnType.Numeric).update
        (toRaw p)).total = ([p.1] : List ℚ).length := by
      rw [update_total]
      rfl
    have hm1 : ((ColumnStats.new header ColumnType.Numeric).update
        (toRaw p)).missing = 0 := by
      rw [update_missing]
      simp [ColumnStats.new, toRaw]
    have hmean1' : ((ColumnStats.new header ColumnType.Numeric).update
        (toRaw p)).mean = ([p.1] : List ℚ).sum / (([p.1] : List ℚ).length : ℚ) := by
      rw [show toRaw p = Raw.num p.1 p.2 from rfl, hmean1]
      simp [ColumnStats.new]
    have hm21' : ((ColumnStats.new header ColumnType.Numeric).update
        (toRaw p)).m2 = sumSq [p.1]
          - ([p.1] : List ℚ).sum ^ 2 / (([p.1] : List ℚ).length : ℚ) := by
      rw [show toRaw p = Raw.num p.1 p.2 from rfl, hm21]
      simp [ColumnStats.new, sumSq]
    obtain ⟨Hk, Ht, Hm, Hmean, Hm2⟩ :=
      welford_fold ps' [p.1] _ (by simp) hk1 ht1 hm1 hmean1' hm21'
    have hl : ([p.1] : List ℚ) ++ ps'.map Prod.fst = (p :: ps').map Prod.fst := by
      simp
    have hlne : ([p.1] : List ℚ) ++ ps'.map Prod.fst ≠ [] := by simp
    constructor
    · simp only [Option.map_some']
      rw [← hl, Hmean]
      rfl
    · simp only [Option.map_some']
      rw [← hl, ColumnStats.stddevSq]
      rw [show (((ps'.map toRaw).foldl ColumnStats.update
          ((ColumnStats.new header ColumnType.Numeric).update (toRaw p))).total
            - ((ps'.map toRaw).foldl ColumnStats.update
          ((ColumnStats.new header ColumnType.Numeric).update (toRaw p))).missing)
          = ([p.1] ++ ps'.map Prod.fst).length from by
        rw [Ht, Hm, Nat.sub_zero]]
      by_cases hlen : 1 < ([p.1] ++ ps'.map Prod.fst).length
      · rw [if_pos hlen, if_pos hlen, Hm2]
        unfold specSampleVar specMean
        rw [sum_sq_dev _ hlne]
      · rw [if_neg hlen, if_neg hlen]
  · rw [runN5]
    exact ⟨rfl, rfl, rfl⟩

theorem c4_numeric_column_refines_two_pass_witness :
    (ingestColumn colName (psA.map toRaw)).stats.map ColumnStats.mean
        = some (specMean (psA.map Prod.fst)) ∧
    (ingestColumn colName (psA.map toRaw)).stats.map ColumnStats.stddevSq
        = some (if 1 < (psA.map Prod.fst).length
                then some (specSampleVar (psA.map Prod.fst)) else none) :=
  c4_numeric_column_refines_two_pass.1 colName psA (by simp [psA])

set_option maxHeartbeats 1600000 in
/-- C7: `diagnose_column` is a pure function of the profile and the row
count (re-running it trivially yields the same list), and its output is
exactly the concatenation, in the fixed rule order, of: the missing-values
warning (iff `missing / total_rows > 1/20`), then for `Categorical`
columns the high-cardinality warning (iff `non_missing > 0` and
`uniques / non_missing > 19/20`), and for `Numeric` columns the
near-constant warning (iff `min` and `max` are set and
`|max - min| < 1e-12`), then mixed-values (iff
`numeric_parse_failures > 0`), then outliers (iff `outlier_count > 0`). -/
theorem c7_diagnose_fixed_rule_order (s : ColumnStats) (n : ℕ) :
    diagnose_column s n =
      (if (s.missing : ℚ) / (n : ℚ) > 1 / 20 then
          [Warning.missingValues (round ((s.missing : ℚ) / (n : ℚ) * 100)).toNat]
        else []) ++
      (match s.kind with
        | ColumnType.Categorical =>
            if 0 < n - s.missing ∧
                (s.uniques.card : ℚ) / ((n - s.missing : ℕ) : ℚ) > 19 / 20 then
              [Warning.highCardinality
                ((s.uniques.card : ℚ) / ((n - s.missing : ℕ) : ℚ))]
            else []
        | ColumnType.Numeric =>
            (match s.min, s.max with
              | some mn, some mx =>
                  if |mx - mn| < 1 / 1000000000000 then [Warning.nearConstant]
                  else []
              | _, _ => []) ++
            ((if 0 < s.numeric_parse_failures then [Warning.mixedValues] else []) ++
             (if 0 < s.outlier_count then [Warning.outliers s.outlier_count] else []))) := by
  obtain ⟨nm, k, tot, mis, mn, mx, me, m2v, uq, npf, oc⟩ := s
  unfold diagnose_column
  cases k
  · rcases mn with _ | mn <;> rcases mx with _ | mx <;>
      split_ifs <;> simp_all <;>
      try (split_ifs <;> simp_all) <;>
      try linarith
  · split_ifs <;> simp_all <;>
      try (split_ifs <;> simp_all) <;>
      try linarith
